import Mathlib

/-
  Verification of the concurrent batch fetch engine of havefits.py.

  The Python source is shallowly embedded below:
  - string primitives (endswith, lower, substring membership, os.path.join,
    os.path.splitext, urllib.parse.urlparse validity) are modelled on
    List Char, following the CPython algorithms;
  - DownloadThread.run is a pure function of an environment recording the
    outcome of the HTTP GET, the filesystem existence oracle, and the
    open-and-write outcome; its observable effects (status reports sent via
    wx.CallAfter and paths passed to open) are returned explicitly;
  - MyFrame.on_download and MyFrame.update_status are state transformers on
    the frame state (in_progress_downloads, status_text, download_path);
    on_download additionally returns the ordered list of dispatched tasks,
    the rejected names, and an event trace recording the order of the
    counter reset, each thread start, and each counter increment.
-/

namespace Havefits

/- ## String primitives -/

/-- Boolean substring-of-a-prefix test on character lists, mirroring
Python str.startswith. -/
def strStartsWith (s p : String) : Bool := p.data.isPrefixOf s.data

/-- Boolean suffix test on character lists, mirroring Python str.endswith. -/
def strEndsWith (s p : String) : Bool := p.data.isSuffixOf s.data

/-- Substring occurrence on character lists, mirroring the Python
expression pat in s. -/
def hasSubstr (pat : List Char) : List Char → Bool
  | [] => pat.isEmpty
  | c :: t => pat.isPrefixOf (c :: t) || hasSubstr pat t

/-- Membership of pat as a substring of s, mirroring Python pat in s. -/
def strHasSubstr (s pat : String) : Bool := hasSubstr pat.data s.data

/-- ASCII lowercasing, mirroring Python str.lower on the ASCII names this
program handles. -/
def pyToLower (s : String) : String := ⟨s.data.map Char.toLower⟩

/- ## urllib.parse model: is_valid_url (havefits.py lines 10-15) -/

/-- Characters CPython urlsplit allows in a URL scheme. -/
def isSchemeChar (c : Char) : Bool :=
  c.isAlpha || c.isDigit || c == '+' || c == '-' || c == '.'

/-- Split a character list at its first colon, returning the parts before
and after it, or none when no colon occurs; mirrors url.find of a colon in
CPython urlsplit. -/
def splitAtColon : List Char → Option (List Char × List Char)
  | [] => none
  | c :: t =>
      if c = ':' then some ([], t)
      else
        match splitAtColon t with
        | none => none
        | some p => some (c :: p.1, p.2)

/-- The network-location component CPython urlsplit extracts when the part
after the scheme starts with two slashes: everything up to the next
slash, question mark or hash. -/
def netlocOf : List Char → List Char
  | '/' :: '/' :: r => r.takeWhile fun c => c != '/' && c != '?' && c != '#'
  | _ => []

/-- Embedding of is_valid_url (havefits.py lines 10-15): urlparse the
string and require both a scheme and a netloc to be present; the
ValueError CPython raises on unbalanced brackets in the netloc is caught
by the source and mapped to False. -/
def is_valid_url (url : String) : Bool :=
  match splitAtColon url.data with
  | none => false
  | some (sch, rest) =>
      match sch with
      | [] => false
      | c :: cs =>
          if c.isAlpha && cs.all isSchemeChar then
            let nl := netlocOf rest
            if (nl.contains '[' && !nl.contains ']')
                || (nl.contains ']' && !nl.contains '[') then
              false
            else !nl.isEmpty
          else false

/- ## os.path model -/

/-- Embedding of os.path.join on POSIX for two components, as called at
havefits.py lines 43, 54 and 174: an absolute second component discards
the first, and a separator is inserted only when the first component is
nonempty and does not already end with one. -/
def ospathJoin (a b : String) : String :=
  if strStartsWith b "/" then b
  else if a == "" || strEndsWith a "/" then a ++ b
  else a ++ "/" ++ b

/-- Index of the last occurrence of a character in a list, as an Option;
mirrors Python str.rfind returning -1 when absent. -/
def rfindIdx (c : Char) : List Char → Option Nat
  | [] => none
  | x :: t =>
      match rfindIdx c t with
      | some i => some (i + 1)
      | none => if x = c then some 0 else none

/-- Embedding of os.path.splitext on POSIX (called at havefits.py line
50): split at the last dot provided it lies after the last slash and the
basename has a character other than a dot somewhere before it. -/
def splitext (p : String) : String × String :=
  let l := p.data
  let sepIndex : Int := match rfindIdx '/' l with | some i => (i : Int) | none => -1
  let dotIndex : Int := match rfindIdx '.' l with | some i => (i : Int) | none => -1
  if sepIndex < dotIndex then
    let d := dotIndex.toNat
    let fStart := (sepIndex + 1).toNat
    if ((l.drop fStart).take (d - fStart)).any (fun c => c != '.') then
      (⟨l.take d⟩, ⟨l.drop d⟩)
    else (p, "")
  else (p, "")

/- ## DownloadThread.run (havefits.py lines 39-65) -/

/-- Environment a single DownloadThread.run executes against: the outcome
of requests.get (an exception message or a status code), the filesystem
existence oracle backing os.path.exists, and the outcome of opening the
destination and streaming the chunks into it. -/
structure FetchEnv where
  getResult : Except String Nat
  ex : String → Bool
  writeResult : Except String Unit

/-- Observable effects of one DownloadThread.run: the status reports sent
to the parent frame via wx.CallAfter, and the paths passed to open for
writing. -/
structure RunOut where
  reports : List String
  openCalls : List String
deriving DecidableEq

/-- Embedding of the collision-renaming while loop of havefits.py lines
51-56: starting from the given count, return the first probe path
dir/(stem Copy n ext) that does not exist.  The source loop has no bound;
the fuel argument makes the recursion structural, and exhausting it
models the loop not terminating within fuel probes. -/
def probeLoop (ex : String → Bool) (save_path base_name file_extension : String) :
    Nat → Nat → Option String
  | 0, _ => none
  | fuel + 1, count =>
      let file_path :=
        ospathJoin save_path (base_name ++ " Copy " ++ toString count ++ file_extension)
      if ex file_path then probeLoop ex save_path base_name file_extension fuel (count + 1)
      else some file_path

/-- Embedding of the destination-resolution logic of havefits.py lines
43-56: keep dir/filename if it does not exist, otherwise probe
dir/(stem Copy n ext) for n = 1, 2, 3, ... -/
def resolveDestination (ex : String → Bool) (save_path filename : String)
    (fuel : Nat) : Option String :=
  let file_path := ospathJoin save_path filename
  if ex file_path then
    probeLoop ex save_path (splitext filename).1 (splitext filename).2 fuel 1
  else some file_path

/-- Embedding of DownloadThread.run (havefits.py lines 39-65).  A
requests.get exception yields one Error report and no open; a non-200
status yields one Failed-to-download report and no open; a 200 status
resolves the destination, opens it, and yields a Downloaded report on
success or an Error report if the write raises.  A none result means the
collision loop exhausted its fuel (the source loop would still be
running), in which case nothing observable has happened yet. -/
def run (env : FetchEnv) (filename save_path : String) (fuel : Nat) : RunOut :=
  match env.getResult with
  | Except.error e => ⟨["Error: " ++ e], []⟩
  | Except.ok status_code =>
      if status_code = 200 then
        match resolveDestination env.ex save_path filename fuel with
        | none => ⟨[], []⟩
        | some file_path =>
            match env.writeResult with
            | Except.ok _ => ⟨["Downloaded: " ++ filename], [file_path]⟩
            | Except.error e => ⟨["Error: " ++ e], [file_path]⟩
      else ⟨["Failed to download: " ++ filename], []⟩

/- ## MyFrame state, update_status, on_download -/

/-- The frame state the batch logic touches: the in-progress counter
(a Python int), the activity-log text control contents, and the chosen
download folder (none until the user picks one). -/
structure FrameState where
  in_progress_downloads : Int
  status_text : String
  download_path : Option String
deriving DecidableEq

/-- Embedding of MyFrame.update_status (havefits.py lines 185-196): pick
the phase string from the current counter and the message text, then
append message, newline, phase, newline to the log.  Note the counter
field is carried over unchanged: the source never decrements it. -/
def update_status (st : FrameState) (message : String) : FrameState :=
  let status_message :=
    if st.in_progress_downloads > 0 then ""
    else if strHasSubstr message "Failed to download" then "Partially Complete"
    else "All Complete, Pending Next"
  ⟨st.in_progress_downloads,
    st.status_text ++ message ++ "\n" ++ status_message ++ "\n",
    st.download_path⟩

/-- One dispatched DownloadThread as constructed at havefits.py line 175:
its composed url, its filename, and the folder it saves into. -/
structure FetchTask where
  url : String
  filename : String
  save_path : String
deriving DecidableEq

/-- Embedding of the per-name suffix check at havefits.py line 170:
filename.lower().endswith(legal FITS suffixes). -/
def validateItemName (filename : String) : Bool :=
  strEndsWith (pyToLower filename) ".fit" || strEndsWith (pyToLower filename) ".fits"

/-- How an on_download call ends: an early rejection from one of the two
precondition message boxes, or acceptance of the batch. -/
inductive SubmitResult
  | rejectedNoPath
  | rejectedBadUrl
  | accepted
deriving DecidableEq

/-- One observable step of the dispatch loop of havefits.py lines 163-177:
the counter reset, a thread start, or a counter increment. -/
inductive Ev
  | reset
  | start (t : FetchTask)
  | incr
deriving DecidableEq

/-- Event sequence the dispatch loop emits for the dispatched tasks: the
source starts each thread and then increments the counter (lines
176-177). -/
def traceOf : List FetchTask → List Ev
  | [] => []
  | t :: ts => Ev.start t :: Ev.incr :: traceOf ts

/-- Everything observable about one on_download call: the final frame
state, the dispatched tasks in input order, the rejected names in input
order, how many aggregated invalid-name message boxes were shown, the
dispatch-loop event trace, and the overall result. -/
structure SubmitOut where
  state : FrameState
  tasks : List FetchTask
  invalid_files : List String
  diagnostics : Nat
  trace : List Ev
  result : SubmitResult
deriving DecidableEq

/-- Embedding of MyFrame.on_download (havefits.py lines 146-182): reject
when no download folder was chosen, then when the base url is invalid;
otherwise reset the counter, and for each name in order either collect it
as invalid or compose its url with os.path.join, start its thread and
increment the counter; finally show one aggregated message box when any
name was invalid. -/
def on_download (st : FrameState) (base_url : String) (file_list : List String) :
    SubmitOut :=
  match st.download_path with
  | none => ⟨st, [], [], 0, [], SubmitResult.rejectedNoPath⟩
  | some download_path =>
      if is_valid_url base_url then
        let tasks := (file_list.filter validateItemName).map
          fun f => FetchTask.mk (ospathJoin base_url f) f download_path
        let invalid_files := file_list.filter fun f => ! validateItemName f
        ⟨⟨(tasks.length : Int), st.status_text, st.download_path⟩,
          tasks, invalid_files,
          if invalid_files.isEmpty then 0 else 1,
          Ev.reset :: traceOf tasks,
          SubmitResult.accepted⟩
      else ⟨st, [], [], 0, [], SubmitResult.rejectedBadUrl⟩

/-- Whether an event is a counter increment. -/
def isIncr : Ev → Bool
  | Ev.incr => true
  | _ => false

/-- Number of counter increments among the first i events of a trace. -/
def countIncr (tr : List Ev) (i : Nat) : Nat :=
  ((tr.take i).filter isIncr).length

/-- Terminal-marker count of a status report: how many of the three
terminal markers the report starts with. -/
def markerCount (m : String) : Nat :=
  (if strStartsWith m "Downloaded:" then 1 else 0) +
  (if strStartsWith m "Failed to download:" then 1 else 0) +
  (if strStartsWith m "Error:" then 1 else 0)

/- ## Helper lemmas -/

lemma data_append (s t : String) : (s ++ t).data = s.data ++ t.data := rfl

lemma isPrefixOf_append_eq (p : List Char) :
    ∀ (a l : List Char), p.length ≤ a.length →
      p.isPrefixOf (a ++ l) = p.isPrefixOf a := by
  induction p with
  | nil => intro a l _; simp [List.isPrefixOf]
  | cons c cs ih =>
      intro a l h
      cases a with
      | nil => simp at h
      | cons b bs =>
          simp only [List.cons_append, List.isPrefixOf]
          rw [List.append_eq, ih bs l (by simpa using h)]

lemma isPrefixOf_cons_ne (c d : Char) (p l : List Char) (h : (c == d) = false) :
    (c :: p).isPrefixOf (d :: l) = false := by
  simp only [List.isPrefixOf, h, Bool.false_and]

lemma markerCount_downloaded (f : String) :
    markerCount ("Downloaded: " ++ f) = 1 := by
  have h1 : strStartsWith ("Downloaded: " ++ f) "Downloaded:" = true := by
    unfold strStartsWith
    rw [data_append, isPrefixOf_append_eq _ _ _ (by decide)]
    decide
  have h2 : strStartsWith ("Downloaded: " ++ f) "Failed to download:" = false := by
    unfold strStartsWith
    rw [data_append]
    have e1 : "Failed to download:".data = 'F' :: "ailed to download:".data := rfl
    have e2 : "Downloaded: ".data ++ f.data = 'D' :: ("ownloaded: ".data ++ f.data) := rfl
    rw [e1, e2]
    exact isPrefixOf_cons_ne 'F' 'D' _ _ (by decide)
  have h3 : strStartsWith ("Downloaded: " ++ f) "Error:" = false := by
    unfold strStartsWith
    rw [data_append, isPrefixOf_append_eq _ _ _ (by decide)]
    decide
  simp [markerCount, h1, h2, h3]

lemma markerCount_failed (f : String) :
    markerCount ("Failed to download: " ++ f) = 1 := by
  have h1 : strStartsWith ("Failed to download: " ++ f) "Downloaded:" = false := by
    unfold strStartsWith
    rw [data_append]
    have e1 : "Downloaded:".data = 'D' :: "ownloaded:".data := rfl
    have e2 : "Failed to download: ".data ++ f.data
        = 'F' :: ("ailed to download: ".data ++ f.data) := rfl
    rw [e1, e2]
    exact isPrefixOf_cons_ne 'D' 'F' _ _ (by decide)
  have h2 : strStartsWith ("Failed to download: " ++ f) "Failed to download:" = true := by
    unfold strStartsWith
    rw [data_append, isPrefixOf_append_eq _ _ _ (by decide)]
    decide
  have h3 : strStartsWith ("Failed to download: " ++ f) "Error:" = false := by
    unfold strStartsWith
    rw [data_append]
    have e1 : "Error:".data = 'E' :: "rror:".data := rfl
    have e2 : "Failed to download: ".data ++ f.data
        = 'F' :: ("ailed to download: ".data ++ f.data) := rfl
    rw [e1, e2]
    exact isPrefixOf_cons_ne 'E' 'F' _ _ (by decide)
  simp [markerCount, h1, h2, h3]

lemma markerCount_error (e : String) :
    markerCount ("Error: " ++ e) = 1 := by
  have h1 : strStartsWith ("Error: " ++ e) "Downloaded:" = false := by
    unfold strStartsWith
    rw [data_append]
    have e1 : "Downloaded:".data = 'D' :: "ownloaded:".data := rfl
    have e2 : "Error: ".data ++ e.data = 'E' :: ("rror: ".data ++ e.data) := rfl
    rw [e1, e2]
    exact isPrefixOf_cons_ne 'D' 'E' _ _ (by decide)
  have h2 : strStartsWith ("Error: " ++ e) "Failed to download:" = false := by
    unfold strStartsWith
    rw [data_append]
    have e1 : "Failed to download:".data = 'F' :: "ailed to download:".data := rfl
    have e2 : "Error: ".data ++ e.data = 'E' :: ("rror: ".data ++ e.data) := rfl
    rw [e1, e2]
    exact isPrefixOf_cons_ne 'F' 'E' _ _ (by decide)
  have h3 : strStartsWith ("Error: " ++ e) "Error:" = true := by
    unfold strStartsWith
    rw [data_append, isPrefixOf_append_eq _ _ _ (by decide)]
    decide
  simp [markerCount, h1, h2, h3]

lemma probeLoop_eq (ex : String → Bool) (d b e : String) :
    ∀ (fuel count n : Nat), count ≤ n → n < count + fuel →
      ex (ospathJoin d (b ++ " Copy " ++ toString n ++ e)) = false →
      (∀ m, count ≤ m → m < n → ex (ospathJoin d (b ++ " Copy " ++ toString m ++ e)) = true) →
      probeLoop ex d b e fuel count
        = some (ospathJoin d (b ++ " Copy " ++ toString n ++ e)) := by
  intro fuel
  induction fuel with
  | zero => intro count n h1 h2 _ _; omega
  | succ fuel ih =>
      intro count n h1 h2 h3 h4
      by_cases hc : count = n
      · subst hc
        simp [probeLoop, h3]
      · have hlt : count < n := Nat.lt_of_le_of_ne h1 hc
        have hex : ex (ospathJoin d (b ++ " Copy " ++ toString count ++ e)) = true :=
          h4 count (Nat.le_refl _) hlt
        simp only [probeLoop, hex, if_true]
        exact ih (count + 1) n hlt (by omega) h3 (fun m hm1 hm2 => h4 m (by omega) hm2)

lemma traceOf_spec (ts : List FetchTask) :
    ∀ (k : Nat) (t : FetchTask), ts.get? k = some t →
      (traceOf ts).get? (2 * k) = some (Ev.start t) ∧
      (traceOf ts).get? (2 * k + 1) = some Ev.incr ∧
      (((traceOf ts).take (2 * k)).filter isIncr).length = k := by
  induction ts with
  | nil => intro k t h; simp at h
  | cons u us ih =>
      intro k t h
      cases k with
      | zero =>
          simp only [List.get?] at h
          cases h
          refine ⟨rfl, rfl, ?_⟩
          simp
      | succ k =>
          have h' : us.get? k = some t := by simpa using h
          have H := ih k t h'
          have e2 : 2 * (k + 1) = 2 * k + 1 + 1 := by ring
          refine ⟨?_, ?_, ?_⟩
          · rw [e2]
            simpa [traceOf] using H.1
          · rw [e2]
            simpa [traceOf] using H.2.1
          · rw [e2]
            simp only [traceOf, List.take_succ_cons, List.filter, isIncr]
            simpa [isIncr] using H.2.2

/- ## Claim theorems -/

/-- Claim C1 (code-bug evidence).  The claim states that update_status
decrements the outstanding count once per report and that after all N
reports of a batch the count is zero.  The source never decrements
in_progress_downloads: after submitting the one-name batch a.fits against
http://example.org/data and processing the single task report, the
counter still equals 1, not 0. -/
theorem c1_missing_decrement :
    (update_status
        (on_download ⟨0, "", some "d"⟩ "http://example.org/data" ["a.fits"]).state
        "Downloaded: a.fits").in_progress_downloads = 1 := by decide

/-- Claim C2 (code-bug evidence).  The claim states that the final report
of an all-success batch is logged with phase All Complete, Pending Next.
Because the counter is never decremented, the final (and only) report of
the one-name batch a.fits still sees in_progress_downloads = 1 > 0 and the
appended phase is the empty string: the log afterwards is exactly the
message, a newline, the empty phase and a newline. -/
theorem c2_final_phase_empty :
    (update_status
        (on_download ⟨0, "", some "d"⟩ "http://example.org/data" ["a.fits"]).state
        "Downloaded: a.fits").status_text = "Downloaded: a.fits\n\n" := by decide

/-- Claim C3 counterexample.  The claim states the outstanding count is
incremented before, or atomically with, starting each task.  In the
dispatch trace of the one-name batch a.fits, the thread start is the
event at index 1, the increment is the separate event at index 2, and no
increment precedes the start: countIncr of the trace at the start's index
is 0, so a task that completed immediately could observe count 0. -/
theorem c3_counterexample :
    (on_download ⟨0, "", some "d"⟩ "http://example.org/data" ["a.fits"]).trace
      = [Ev.reset, Ev.start ⟨"http://example.org/data/a.fits", "a.fits", "d"⟩, Ev.incr]
    ∧ countIncr
        (on_download ⟨0, "", some "d"⟩ "http://example.org/data" ["a.fits"]).trace 1
      = 0 := by decide

/-- Claim C3 as amended: the count is incremented immediately after each
task is started, before the next task starts.  In the dispatch trace the
k-th task's start is the event at index 1 + 2k, the event immediately
after it is that task's increment, and exactly k increments precede the
start (so the transient value a fast-completing k-th task could observe
is k, not k + 1). -/
theorem c3_incr_after_start (st : FrameState) (base_url : String)
    (file_list : List String) (k : Nat) (t : FetchTask)
    (h : (on_download st base_url file_list).tasks.get? k = some t) :
    (on_download st base_url file_list).trace.get? (1 + 2 * k) = some (Ev.start t) ∧
    (on_download st base_url file_list).trace.get? (1 + 2 * k + 1) = some Ev.incr ∧
    countIncr (on_download st base_url file_list).trace (1 + 2 * k) = k := by
  rcases st with ⟨c, log, dp⟩
  cases dp with
  | none => simp [on_download] at h
  | some p =>
      by_cases hurl : is_valid_url base_url
      · simp only [on_download, hurl, if_true] at h ⊢
        have H := traceOf_spec _ k t h
        have e1 : 1 + 2 * k = 2 * k + 1 := by ring
        refine ⟨?_, ?_, ?_⟩
        · rw [e1]
          simpa using H.1
        · rw [e1]
          simpa using H.2.1
        · rw [countIncr, e1]
          simp only [List.take_succ_cons, List.filter, isIncr]
          simpa [isIncr] using H.2.2
      · simp [on_download, hurl] at h

/-- Claim C3 witness: for the concrete one-name batch, the start of task
0 sits at trace index 1 and its increment at index 2. -/
theorem c3_witness :
    (on_download ⟨0, "", some "d"⟩ "http://example.org/data" ["a.fits"]).trace.get? 1
      = some (Ev.start ⟨"http://example.org/data/a.fits", "a.fits", "d"⟩) ∧
    (on_download ⟨0, "", some "d"⟩ "http://example.org/data" ["a.fits"]).trace.get? 2
      = some Ev.incr := by
  have h := c3_incr_after_start ⟨0, "", some "d"⟩ "http://example.org/data" ["a.fits"] 0
      ⟨"http://example.org/data/a.fits", "a.fits", "d"⟩ (by decide)
  exact ⟨by simpa using h.1, by simpa using h.2.1⟩

/-- The n-th collision-renamed candidate for filename inside dir, as
built by the while loop at havefits.py lines 51-56. -/
def candCopy (dir filename : String) (n : Nat) : String :=
  ospathJoin dir ((splitext filename).1 ++ " Copy " ++ toString n ++ (splitext filename).2)

/-- Claim C4: destination resolution.  If dir/filename does not exist it
is returned unchanged; otherwise the result is the candidate
dir/(stem Copy n ext) for the smallest n from 1 on whose path does not
exist (provided the probe loop has enough fuel to reach n). -/
theorem c4_resolveDestination_correct (ex : String → Bool) (dir filename : String)
    (fuel n : Nat) :
    (ex (ospathJoin dir filename) = false →
        resolveDestination ex dir filename fuel = some (ospathJoin dir filename)) ∧
    (ex (ospathJoin dir filename) = true → 1 ≤ n → n ≤ fuel →
        ex (candCopy dir filename n) = false →
        (∀ m, 1 ≤ m → m < n → ex (candCopy dir filename m) = true) →
        resolveDestination ex dir filename fuel = some (candCopy dir filename n)) := by
  constructor
  · intro h
    simp [resolveDestination, h]
  · intro h1 h2 h3 h4 h5
    simp only [resolveDestination, h1, if_true]
    exact probeLoop_eq ex dir (splitext filename).1 (splitext filename).2 fuel 1 n
      h2 (by omega) h4 h5

/-- Claim C4 witness: with only d/a.fits existing, resolution yields
d/a Copy 1.fits. -/
theorem c4_witness :
    resolveDestination (fun s => s == "d/a.fits") "d" "a.fits" 1
      = some "d/a Copy 1.fits" := by
  have h := (c4_resolveDestination_correct (fun s => s == "d/a.fits") "d" "a.fits" 1 1).2
      (by decide) (by decide) (by decide) (by decide) (by intro m hm1 hm2; omega)
  rw [h]
  decide

/-- Claim C5 counterexample.  The claim states every report contains
exactly one of the three terminal markers.  The name
Failed to download: a.fits is a valid item name (it ends in .fits), and
its success report Downloaded: Failed to download: a.fits contains two of
the markers as substrings. -/
theorem c5_counterexample :
    (run ⟨Except.ok 200, fun _ => false, Except.ok ()⟩
        "Failed to download: a.fits" "d" 1).reports
      = ["Downloaded: Failed to download: a.fits"]
    ∧ strHasSubstr "Downloaded: Failed to download: a.fits" "Downloaded:" = true
    ∧ strHasSubstr "Downloaded: Failed to download: a.fits" "Failed to download:" = true := by
  decide

/-- Claim C5 as amended: every run of a Fetch Task whose collision probe
terminates sends exactly one status report, and the report starts with
exactly one of the three terminal markers Downloaded:,
Failed to download:, Error:. -/
theorem c5_exactly_one_report (env : FetchEnv) (filename save_path : String)
    (fuel : Nat)
    (hres : resolveDestination env.ex save_path filename fuel ≠ none) :
    (run env filename save_path fuel).reports.length = 1 ∧
    ∀ m ∈ (run env filename save_path fuel).reports, markerCount m = 1 := by
  cases hget : env.getResult with
  | error e => simp [run, hget, markerCount_error]
  | ok s =>
      by_cases hs : s = 200
      · subst hs
        cases hr : resolveDestination env.ex save_path filename fuel with
        | none => exact absurd hr hres
        | some fp =>
            cases hw : env.writeResult with
            | ok u => simp [run, hget, hr, hw, markerCount_downloaded]
            | error e => simp [run, hget, hr, hw, markerCount_error]
      · simp [run, hget, hs, markerCount_failed]

/-- Claim C5 witness: a concrete successful run sends exactly one
report. -/
theorem c5_witness :
    (run ⟨Except.ok 200, fun _ => false, Except.ok ()⟩ "a.fits" "d" 1).reports.length
      = 1 :=
  (c5_exactly_one_report ⟨Except.ok 200, fun _ => false, Except.ok ()⟩ "a.fits" "d" 1
    (by decide)).1

/-- Claim C6: when no download folder has been chosen or the base url is
invalid, on_download rejects synchronously: the frame state is returned
unchanged, no task is dispatched, the dispatch loop never runs, no
invalid-name diagnostic is shown, and the result is one of the two
precondition rejections rather than acceptance. -/
theorem c6_precondition_reject (st : FrameState) (base_url : String)
    (file_list : List String)
    (h : st.download_path = none ∨ is_valid_url base_url = false) :
    (on_download st base_url file_list).state = st ∧
    (on_download st base_url file_list).tasks = [] ∧
    (on_download st base_url file_list).trace = [] ∧
    (on_download st base_url file_list).diagnostics = 0 ∧
    ((on_download st base_url file_list).result = SubmitResult.rejectedNoPath ∨
      (on_download st base_url file_list).result = SubmitResult.rejectedBadUrl) := by
  rcases st with ⟨c, log, dp⟩
  cases dp with
  | none => simp [on_download]
  | some p =>
      have hurl : is_valid_url base_url = false := by
        rcases h with h | h
        · simp at h
        · exact h
      simp [on_download, hurl]

/-- Claim C6 witness: with no folder chosen the concrete submission
leaves the state untouched and dispatches nothing. -/
theorem c6_witness :
    (on_download ⟨5, "log", none⟩ "http://example.org" ["a.fits"]).state
      = ⟨5, "log", none⟩ ∧
    (on_download ⟨5, "log", none⟩ "http://example.org" ["a.fits"]).tasks = [] := by
  have h := c6_precondition_reject ⟨5, "log", none⟩ "http://example.org" ["a.fits"]
      (Or.inl rfl)
  exact ⟨h.1, h.2.1⟩

/-- Claim C7: validateItemName holds exactly when the lowercased name
ends in one of the two FITS suffixes; in an accepted submission every
dispatched task has a valid filename, a name failing validation is never
among the dispatched filenames and is collected into the rejected list,
and at most one aggregated diagnostic is shown, exactly one when some
name was rejected. -/
theorem c7_validateItemName_spec (st : FrameState) (base_url : String)
    (file_list : List String)
    (hacc : (on_download st base_url file_list).result = SubmitResult.accepted) :
    (∀ name, validateItemName name = true ↔
        (strEndsWith (pyToLower name) ".fit" = true ∨
          strEndsWith (pyToLower name) ".fits" = true)) ∧
    (∀ t ∈ (on_download st base_url file_list).tasks,
        validateItemName t.filename = true) ∧
    (∀ name ∈ file_list, validateItemName name = false →
        name ∉ (on_download st base_url file_list).tasks.map FetchTask.filename ∧
        name ∈ (on_download st base_url file_list).invalid_files) ∧
    (on_download st base_url file_list).diagnostics ≤ 1 ∧
    ((on_download st base_url file_list).invalid_files ≠ [] →
        (on_download st base_url file_list).diagnostics = 1) := by
  rcases st with ⟨c, log, dp⟩
  cases dp with
  | none => simp [on_download] at hacc
  | some p =>
      by_cases hurl : is_valid_url base_url
      · simp only [on_download, hurl, if_true]
        refine ⟨?_, ?_, ?_, ?_, ?_⟩
        · intro name
          simp [validateItemName, Bool.or_eq_true]
        · intro t ht
          obtain ⟨f, hf, rfl⟩ := List.mem_map.1 ht
          exact (List.mem_filter.1 hf).2
        · intro name hn hinv
          constructor
          · intro hmem
            obtain ⟨t, ht, hft⟩ := List.mem_map.1 hmem
            obtain ⟨f, hf, rfl⟩ := List.mem_map.1 ht
            have hval : validateItemName f = true := (List.mem_filter.1 hf).2
            have hfn : f = name := hft
            rw [hfn] at hval
            rw [hval] at hinv
            exact Bool.noConfusion hinv
          · exact List.mem_filter.2 ⟨hn, by simp [hinv]⟩
        · by_cases he : (file_list.filter fun f => ! validateItemName f).isEmpty
          · simp [he]
          · simp [he]
        · intro hne
          have : ¬ (file_list.filter fun f => ! validateItemName f).isEmpty := by
            simpa [List.isEmpty_iff] using hne
          simp [this]
      · simp [on_download, hurl] at hacc

/-- Claim C7 witness: IMG_01.fits validates, readme.txt does not, and
the concrete mixed submission shows exactly one aggregated diagnostic. -/
theorem c7_witness :
    validateItemName "IMG_01.fits" = true ∧
    validateItemName "readme.txt" = false ∧
    (on_download ⟨0, "", some "d"⟩ "http://example.org/data"
        ["IMG_01.fits", "readme.txt"]).diagnostics = 1 := by
  have h := c7_validateItemName_spec ⟨0, "", some "d"⟩ "http://example.org/data"
      ["IMG_01.fits", "readme.txt"] (by decide)
  exact ⟨by decide, by decide, h.2.2.2.2 (by decide)⟩

/-- Claim C8: a run whose HTTP GET raised, or whose response status is
not 200, never passes any destination path to open: the destination file
is only created after a success status is confirmed. -/
theorem c8_no_open_without_success (env : FetchEnv) (filename save_path : String)
    (fuel : Nat)
    (h : ∀ s, env.getResult = Except.ok s → s ≠ 200) :
    (run env filename save_path fuel).openCalls = [] := by
  cases hget : env.getResult with
  | error e => simp [run, hget]
  | ok s =>
      have hs : s ≠ 200 := h s hget
      simp [run, hget, hs]

/-- Claim C8 witness: a 404 response opens no file. -/
theorem c8_witness :
    (run ⟨Except.ok 404, fun _ => true, Except.ok ()⟩ "a.fits" "d" 1).openCalls = [] :=
  c8_no_open_without_success ⟨Except.ok 404, fun _ => true, Except.ok ()⟩ "a.fits" "d" 1
    (by intro s hs; injection hs with h; omega)

/-- Claim C9: every accepted submission resets the counter before
dispatching: the final counter equals the number of dispatched tasks
regardless of its prior value, the first trace event is the reset, every
thread start strictly follows it, and the whole submission outcome is
identical for any two prior counter values. -/
theorem c9_reset_before_dispatch (c c' : Int) (log : String) (dp : Option String)
    (base_url : String) (file_list : List String)
    (hacc : (on_download ⟨c, log, dp⟩ base_url file_list).result
        = SubmitResult.accepted) :
    (on_download ⟨c, log, dp⟩ base_url file_list).state.in_progress_downloads
        = ((on_download ⟨c, log, dp⟩ base_url file_list).tasks.length : Int) ∧
    (on_download ⟨c, log, dp⟩ base_url file_list).trace.head? = some Ev.reset ∧
    (∀ i t, (on_download ⟨c, log, dp⟩ base_url file_list).trace.get? i
        = some (Ev.start t) → 0 < i) ∧
    on_download ⟨c', log, dp⟩ base_url file_list
      = on_download ⟨c, log, dp⟩ base_url file_list := by
  cases dp with
  | none => simp [on_download] at hacc
  | some p =>
      by_cases hurl : is_valid_url base_url
      · simp only [on_download, hurl, if_true]
        refine ⟨trivial, rfl, ?_, trivial⟩
        intro i t hi
        cases i with
        | zero => simp at hi
        | succ i => exact Nat.succ_pos i
      · simp [on_download, hurl] at hacc

/-- Claim C9 witness: the concrete one-name submission ends with counter
1 whether the previous batch left the counter at 7 or at 0, and the two
submission outcomes coincide. -/
theorem c9_witness :
    (on_download ⟨7, "", some "d"⟩ "http://example.org/data"
        ["a.fits"]).state.in_progress_downloads = 1 ∧
    on_download ⟨7, "", some "d"⟩ "http://example.org/data" ["a.fits"]
      = on_download ⟨0, "", some "d"⟩ "http://example.org/data" ["a.fits"] := by
  have h := c9_reset_before_dispatch 0 7 "" (some "d") "http://example.org/data"
      ["a.fits"] (by decide)
  exact ⟨by decide, h.2.2.2⟩

/-- Claim C10: every dispatched task's url is the os.path.join of the
base and the name; a name starting with the separator discards the base
entirely, and a nonempty base without a trailing separator gains one
before the name. -/
theorem c10_os_path_join (st : FrameState) (base_url : String)
    (file_list : List String)
    (hacc : (on_download st base_url file_list).result = SubmitResult.accepted) :
    (∀ t ∈ (on_download st base_url file_list).tasks,
        t.url = ospathJoin base_url t.filename) ∧
    (∀ b n : String, strStartsWith n "/" = true → ospathJoin b n = n) ∧
    (∀ b n : String, b ≠ "" → strEndsWith b "/" = false →
        strStartsWith n "/" = false → ospathJoin b n = b ++ "/" ++ n) := by
  refine ⟨?_, ?_, ?_⟩
  · rcases st with ⟨c, log, dp⟩
    cases dp with
    | none => simp [on_download] at hacc
    | some p =>
        by_cases hurl : is_valid_url base_url
        · intro t ht
          simp only [on_download, hurl, if_true] at ht
          obtain ⟨f, hf, rfl⟩ := List.mem_map.1 ht
          rfl
        · simp [on_download, hurl] at hacc
  · intro b n h
    simp [ospathJoin, h]
  · intro b n hb he hn
    have hbeq : (b == "") = false := beq_eq_false_iff_ne.mpr hb
    simp [ospathJoin, hn, he, hbeq]

/-- Claim C10 witness: an absolute name discards the concrete base, and
a base without a trailing slash gains one. -/
theorem c10_witness :
    ospathJoin "http://example.org/data" "/a.fits" = "/a.fits" ∧
    ospathJoin "http://example.org/data" "a.fits"
      = "http://example.org/data/a.fits" := by
  have h := c10_os_path_join ⟨0, "", some "d"⟩ "http://example.org/data" ["a.fits"]
      (by decide)
  refine ⟨h.2.1 "http://example.org/data" "/a.fits" (by decide), ?_⟩
  rw [h.2.2 "http://example.org/data" "a.fits" (by decide) (by decide) (by decide)]
  decide

end Havefits
